import Mathlib

/-!
Verification of the enarx-keepldr SGX backend: a shallow embedding of the
segment translator, the enclave build overlap check, the per-thread
enter/exit state machine (src/backend/sgx/mod.rs, enclave/execute.rs) and
the in-enclave syscall proxy (internal/shim-sgx/src/handler/base.rs),
with theorems about the specified behaviour.

Machine integers are modelled as `Nat`; the only conversion where overflow
matters is the `usize -> u32` conversion in `Thread::cpuid`, modelled by an
explicit `< 2^32` bound check.  Rust panics (`panic!`, `unreachable!`,
`assert!`, `.unwrap()`) are modelled as distinguished error values of a
`Res` result type, since a panic aborts the process; recoverable Rust
`Result` errors are separate error values.
-/

/-- Result type mirroring Rust `Result`. -/
inductive Res (ε α : Type) where
  | ok (a : α)
  | error (e : ε)
deriving DecidableEq, Repr

/-- `Entry` from enclave/execute.rs: how to enter an enclave
(`Enter` = fresh entry via EENTER, `Resume` = resume after an AEX). -/
inductive Entry where
  | Enter
  | Resume
deriving DecidableEq, Repr

/-- x86 interrupt vector numbers (the `InterruptVector` enum of the x86_64
crate); only the invalid-opcode vector is inspected by the code. -/
abbrev InterruptVector := Nat

/-- The invalid-opcode exception (#UD) is vector 6 in the x86 numbering. -/
def InterruptVector.invalidOpcode : InterruptVector := 6

/-- `ExceptionInfo` from enclave/execute.rs: details of an asynchronous
exit (AEX): the last entry kind, the trap vector, the trapping code and
the faulting address. -/
structure ExceptionInfo where
  last : Entry
  trap : InterruptVector
  code : Nat
  addr : Nat
deriving DecidableEq, Repr

/-- The outcome reported by the hardware entry call
`enclave::Thread::enter` (execute.rs): `Ok(())` on a clean EEXIT, or the
`ExceptionInfo` of an asynchronous exit. -/
inductive HwResult where
  | ok
  | aex (ei : ExceptionInfo)
deriving DecidableEq, Repr

/-- The request half of the sallyport message: a syscall number and seven
argument registers (the code reads `arg[0]`..`arg[3]`). -/
structure Request where
  num : Nat
  arg0 : Nat
  arg1 : Nat
  arg2 : Nat
  arg3 : Nat
  arg4 : Nat
  arg5 : Nat
  arg6 : Nat
deriving DecidableEq, Repr

/-- The reply half of the sallyport message: `Result<[Register; 2], errno>`. -/
inductive Reply where
  | ok (r0 r1 : Nat)
  | err (errno : Nat)
deriving DecidableEq, Repr

/-- The sallyport message, holding one request/reply pair.  (In the Rust
source `req` and `rep` are members of a union; the claims below are about
which logical field each operation writes, so they are modelled as
separate fields.) -/
structure Message where
  req : Request
  rep : Reply
deriving DecidableEq, Repr

/-- The shared sallyport block carrying one in-flight message. -/
structure Block where
  msg : Message
deriving DecidableEq, Repr

/-- `Block::default()`: zeroed shared memory. -/
def Block.default : Block :=
  { msg := { req := { num := 0, arg0 := 0, arg1 := 0, arg2 := 0, arg3 := 0
                    , arg4 := 0, arg5 := 0, arg6 := 0 }
           , rep := Reply.ok 0 0 } }

/-- Modelled from the spec: `SYS_ENARX_CPUID`, the CPU-identification
passthrough request number from the sallyport crate (its numeric value is
not under src/; only its distinctness from other request numbers is used). -/
def SYS_ENARX_CPUID : Nat := 0xEA01

/-- Modelled from the spec: `SYS_ENARX_GETATT`, the attestation-report
request number from the sallyport crate (its numeric value is not under
src/; only its distinctness from other request numbers is used). -/
def SYS_ENARX_GETATT : Nat := 0xEA02

/-- Result of the `__cpuid_count` hardware instruction: four 32-bit words. -/
structure CpuidResult where
  eax : Nat
  ebx : Nat
  ecx : Nat
  edx : Nat
deriving DecidableEq, Repr

/-- The `__cpuid_count` hardware oracle: leaf and subleaf to result words. -/
abbrev CpuidFn := Nat → Nat → CpuidResult

/-- Outcome of the external `get_attestation` call used by
`Thread::attest`: a `usize` result on success, or a propagated error. -/
inductive AttResult where
  | ok (r : Nat)
  | error
deriving DecidableEq, Repr

/-- The host-side `Thread` of src/backend/sgx/mod.rs: the shared sallyport
block, the CSSA depth counter and the next entry mode.  (The `registers`
scratch area only ever carries the address of `block` in `rdi`; machine
addresses are outside the model.) -/
structure Thread where
  block : Block
  cssa : Nat
  how : Entry
deriving DecidableEq, Repr

/-- `Keep::spawn` (mod.rs): a freshly spawned thread has a default block,
`cssa = usize::default() = 0` and `how = Entry::Enter`. -/
def spawnThread : Thread :=
  { block := Block.default, cssa := 0, how := Entry.Enter }

/-- `Thread::cpuid` (mod.rs): converts `arg[0]`, `arg[1]` to `u32` (the
`try_into().unwrap()` panics unless the value fits in 32 bits), executes
`__cpuid_count` and writes the four result words back into
`arg[0]`..`arg[3]` of the request.  `none` models the unwrap panic. -/
def Thread.cpuid (t : Thread) (cf : CpuidFn) : Option Thread :=
  if t.block.msg.req.arg0 < 2 ^ 32 ∧ t.block.msg.req.arg1 < 2 ^ 32 then
    let c := cf t.block.msg.req.arg0 t.block.msg.req.arg1
    some { t with block.msg.req.arg0 := c.eax
                , block.msg.req.arg1 := c.ebx
                , block.msg.req.arg2 := c.ecx
                , block.msg.req.arg3 := c.edx }
  else
    none

/-- `Thread::attest` (mod.rs), after a successful `get_attestation` call
returning `result`: writes `Ok([result, 0])` into the reply field. -/
def Thread.attest (t : Thread) (result : Nat) : Thread :=
  { t with block.msg.rep := Reply.ok result 0 }

/-- The abnormal terminations of `Thread::enter` (mod.rs): the
`panic!("Unexpected AEX")` on a non-#UD asynchronous exit, the
`unreachable!()` on a CSSA underflow, the unwrap panic inside
`Thread::cpuid`, and the propagated error of a failed attestation call. -/
inductive EnterErr where
  | unexpectedAex (ei : ExceptionInfo)
  | cssaUnderflow
  | cpuidArgOverflow
  | attestFailed
deriving DecidableEq, Repr

/-- The `Command` returned to the caller of `enter` (the backend API):
re-enter immediately, or service the syscall held in the block. -/
inductive Command where
  | Continue
  | SysCall (block : Block)
deriving DecidableEq, Repr

/-- `Thread::enter` (mod.rs lines 232-261).  The hardware outcome `hw`,
the CPUID hardware oracle `cf` and the attestation outcome `att` are
inputs.  Mirrors the source: the new entry mode is `Enter` on a #UD AEX
and `Resume` on a clean return (any other AEX panics); the CSSA increments
on an `Enter` transition and decrements on a `Resume` transition (the
`unreachable!()` fires at zero); the sallyport request is evaluated
exactly on the `(prev, how) = (Enter, Resume)` transition. -/
def Thread.enter (t : Thread) (hw : HwResult) (cf : CpuidFn) (att : AttResult) :
    Res EnterErr (Thread × Command) :=
  match hw with
  | HwResult.aex ei =>
    if ei.trap = InterruptVector.invalidOpcode then
      Res.ok ({ t with how := Entry.Enter, cssa := t.cssa + 1 }, Command.Continue)
    else
      Res.error (EnterErr.unexpectedAex ei)
  | HwResult.ok =>
    match t.cssa with
    | 0 => Res.error EnterErr.cssaUnderflow
    | n + 1 =>
      let t2 : Thread := { t with how := Entry.Resume, cssa := n }
      match t.how with
      | Entry.Enter =>
        if t2.block.msg.req.num = SYS_ENARX_CPUID then
          match t2.cpuid cf with
          | some t3 => Res.ok (t3, Command.Continue)
          | none => Res.error EnterErr.cpuidArgOverflow
        else if t2.block.msg.req.num = SYS_ENARX_GETATT then
          match att with
          | AttResult.ok r => Res.ok (t2.attest r, Command.Continue)
          | AttResult.error => Res.error EnterErr.attestFailed
        else
          Res.ok (t2, Command.SysCall t2.block)
      | Entry.Resume => Res.ok (t2, Command.Continue)

/-- The external inputs consumed by one `Thread::enter` call. -/
structure StepIn where
  hw : HwResult
  cf : CpuidFn
  att : AttResult

/-- Driving a thread through a sequence of `enter` calls, stopping at the
first abnormal termination. -/
def Thread.run (t : Thread) : List StepIn → Res EnterErr Thread
  | [] => Res.ok t
  | s :: rest =>
    match t.enter s.hw s.cf s.att with
    | Res.error e => Res.error e
    | Res.ok (t2, _) => t2.run rest

/-- The number of steps whose hardware outcome is the #UD asynchronous
exit of the syscall-proxy convention (each causes an `Enter` transition). -/
def countUD : List StepIn → Nat
  | [] => 0
  | s :: rest =>
    (match s.hw with
     | HwResult.aex ei => if ei.trap = InterruptVector.invalidOpcode then 1 else 0
     | HwResult.ok => 0) + countUD rest

/-- The number of steps whose hardware outcome is a clean return (each
causes a `Resume` transition). -/
def countOk : List StepIn → Nat
  | [] => 0
  | s :: rest =>
    (match s.hw with
     | HwResult.aex _ => 0
     | HwResult.ok => 1) + countOk rest

/-- The observable actions of `BaseSyscallHandler::proxy`
(internal/shim-sgx/src/handler/base.rs), in program order. -/
inductive ProxyEvent where
  | writeReq
  | fenceRelease
  | illegalInsn
  | fenceAcquire
  | readRep
deriving DecidableEq, Repr

/-- The in-enclave proxy state: the shared block plus the log of actions
performed so far. -/
structure ProxyRun where
  block : Block
  log : List ProxyEvent

/-- `self.block.msg.req = req`: store the request into the shared block. -/
def doWriteReq (req : Request) (s : ProxyRun) : ProxyRun :=
  { block := { s.block with msg.req := req }, log := s.log ++ [ProxyEvent.writeReq] }

/-- The `Release`-ordered compiler fence: no prior write may move past it. -/
def doFenceRelease (s : ProxyRun) : ProxyRun :=
  { block := s.block, log := s.log ++ [ProxyEvent.fenceRelease] }

/-- The deliberately illegal `syscall` instruction: forces an AEX, during
which the host (modelled by the oracle `host`) services the request and
may write the shared block. -/
def doIllegal (host : Block → Block) (s : ProxyRun) : ProxyRun :=
  { block := host s.block, log := s.log ++ [ProxyEvent.illegalInsn] }

/-- The `Acquire`-ordered compiler fence: no later read may move before it. -/
def doFenceAcquire (s : ProxyRun) : ProxyRun :=
  { block := s.block, log := s.log ++ [ProxyEvent.fenceAcquire] }

/-- `self.block.msg.rep.into()`: read the reply out of the shared block. -/
def doReadRep (s : ProxyRun) : Reply × ProxyRun :=
  (s.block.msg.rep, { block := s.block, log := s.log ++ [ProxyEvent.readRep] })

/-- `BaseSyscallHandler::proxy` (base.rs lines 16-28): write the request,
release fence, forced exit via the illegal instruction, acquire fence,
read and return the reply. -/
def proxy (req : Request) (host : Block → Block) (s : ProxyRun) : Reply × ProxyRun :=
  doReadRep (doFenceAcquire (doIllegal host (doFenceRelease (doWriteReq req s))))

/-- Modelled from the spec: the in-enclave handler state relevant to the
circuit breaker.  `Handler::exit` and the enclave entry path live in
shim-sgx modules that are not under src/; per the doc comment on
`BaseSyscallHandler::attacked` and spec section 4.5, tripping the breaker
EEXITs and latches, and any later entry immediately EEXITs again. -/
structure ShimThread where
  tripped : Bool
deriving DecidableEq, Repr

/-- Outcome of one attempt by the host to enter the enclave. -/
inductive ShimEnterResult where
  | immediateExit
  | normalEntry
deriving DecidableEq, Repr

/-- Modelled from the spec: `BaseSyscallHandler::attacked` (base.rs lines
30-36) trips the circuit breaker and performs `exit(1)`, a terminal EEXIT
with code 1; it never returns to its caller. -/
def ShimThread.attacked (s : ShimThread) : ShimThread × Nat :=
  ({ s with tripped := true }, 1)

/-- Modelled from the spec: one host attempt to enter the enclave; if the
circuit breaker is tripped, the enclave immediately EEXITs, and the latch
is never cleared. -/
def ShimThread.enterOnce (s : ShimThread) : ShimThread × ShimEnterResult :=
  if s.tripped then (s, ShimEnterResult.immediateExit)
  else (s, ShimEnterResult.normalEntry)

/-- The shim state after `n` host entry attempts. -/
def ShimThread.afterEnters (s : ShimThread) : Nat → ShimThread
  | 0 => s
  | n + 1 => ((s.afterEnters n).enterOnce).1

/-- `Page::SIZE` from the primordial crate: 4096 bytes. -/
def PAGE_SIZE : Nat := 4096

/-- ELF `PF_X` program-header flag bit. -/
def PF_X : Nat := 1

/-- ELF `PF_W` program-header flag bit. -/
def PF_W : Nat := 2

/-- ELF `PF_R` program-header flag bit. -/
def PF_R : Nat := 4

/-- Modelled from the spec: `PF_ENARX_SGX_TCS`, the designated
program-header flag bit marking a thread-control (TCS) segment; defined in
crate::binary, which is not under src/.  An OS-specific bit distinct from
the standard and from the unmeasured bit. -/
def PF_ENARX_SGX_TCS : Nat := 2 ^ 20

/-- Modelled from the spec: `PF_ENARX_SGX_UNMEASURED`, the designated
program-header flag bit requesting that a segment not contribute to the
measurement; defined in crate::binary, which is not under src/. -/
def PF_ENARX_SGX_UNMEASURED : Nat := 2 ^ 21

/-- A half-open line `[start, stop)` of addresses (the lset `Line`). -/
structure Line where
  start : Nat
  stop : Nat
deriving DecidableEq, Repr

/-- An ELF program header as exposed by goblin: `file_range()` is
`p_offset..p_offset + p_filesz` and `vm_range()` is
`p_vaddr..p_vaddr + p_memsz`. -/
structure ProgramHeader where
  p_offset : Nat
  p_filesz : Nat
  p_vaddr : Nat
  p_memsz : Nat
  p_flags : Nat
deriving DecidableEq, Repr

/-- The byte range `phdr.file_range()`. -/
def ProgramHeader.fileRange (p : ProgramHeader) : Line :=
  { start := p.p_offset, stop := p.p_offset + p.p_filesz }

/-- The address range `phdr.vm_range()`. -/
def ProgramHeader.vmRange (p : ProgramHeader) : Line :=
  { start := p.p_vaddr, stop := p.p_vaddr + p.p_memsz }

/-- The `Component` abstraction: the raw bytes of the image. -/
structure Component where
  bytes : List Nat

/-- The access-permission bits of an enclave page. -/
structure Rwx where
  r : Bool
  w : Bool
  x : Bool
deriving DecidableEq, Repr

/-- The SGX page `Class`: a regular page or a thread-control structure. -/
inductive PageClass where
  | Regular
  | Tcs
deriving DecidableEq, Repr

/-- The SGX `SecInfo` of a page: its page class and access bits. -/
structure SecInfo where
  cls : PageClass
  perms : Rwx
deriving DecidableEq, Repr

/-- `SecInfo::reg(rwx)`: a regular page with the given access bits. -/
def SecInfo.reg (perms : Rwx) : SecInfo :=
  { cls := PageClass.Regular, perms := perms }

/-- `SecInfo::tcs()`: a thread-control page (no access bits). -/
def SecInfo.tcs : SecInfo :=
  { cls := PageClass.Tcs, perms := { r := false, w := false, x := false } }

/-- `Pages::copy_into(bytes, count, skip)` from the primordial crate: a
page-aligned buffer holding `skip` leading zero bytes, then `bytes`
(at most `count` of them are meaningful), zero-padded up to the next page
boundary of `skip + count` bytes. -/
def copyInto (bytes : List Nat) (count skip : Nat) : List Nat :=
  let total := ((skip + count + (PAGE_SIZE - 1)) / PAGE_SIZE) * PAGE_SIZE
  List.replicate skip 0 ++ bytes ++ List.replicate (total - (skip + bytes.length)) 0

/-- The `Segment` of src/backend/sgx/mod.rs: file range, relocated memory
range, page-aligned page buffer, starting virtual page, page security
info, and whether the load is measured (the only loader flag). -/
structure Segment where
  fline : Line
  mline : Line
  pages : List Nat
  vpage : Nat
  sinfo : SecInfo
  measured : Bool
deriving DecidableEq, Repr

/-- `pages.len()`: the number of whole pages in the segment buffer. -/
def Segment.pagesLen (s : Segment) : Nat :=
  s.pages.length / PAGE_SIZE

/-- `Segment::new(component, phdr, relocate)` (mod.rs lines 61-94):
asserts the relocation offset is page-aligned (`none` models the fatal
assertion), shifts the vm range up by `relocate`, copies the file bytes
into page-aligned pages, derives the rwx bits from `PF_R`/`PF_W`/`PF_X`,
chooses `SecInfo::tcs()` when `PF_ENARX_SGX_TCS` is set (else
`SecInfo::reg(rwx)`), and measures unless `PF_ENARX_SGX_UNMEASURED` is
set. -/
def Segment.new (component : Component) (phdr : ProgramHeader) (relocate : Nat) :
    Option Segment :=
  if relocate % PAGE_SIZE = 0 then
    let fline := phdr.fileRange
    let mline : Line := { start := phdr.vmRange.start + relocate
                        , stop := phdr.vmRange.stop + relocate }
    let skipb := mline.start % PAGE_SIZE
    let vpage := mline.start / PAGE_SIZE
    let count := mline.stop - mline.start
    let bytes := (component.bytes.drop fline.start).take (fline.stop - fline.start)
    let pages := copyInto bytes count skipb
    let rwx : Rwx := { r := phdr.p_flags &&& PF_R = PF_R
                     , w := phdr.p_flags &&& PF_W = PF_W
                     , x := phdr.p_flags &&& PF_X = PF_X }
    some { fline := fline
         , mline := mline
         , pages := pages
         , vpage := vpage
         , sinfo := if phdr.p_flags &&& PF_ENARX_SGX_TCS = 0
                    then SecInfo.reg rwx else SecInfo.tcs
         , measured := phdr.p_flags &&& PF_ENARX_SGX_UNMEASURED = 0 }
  else
    none

/-- The sort performed by `segs.sort_unstable_by_key(|x| x.vpage)`
(mod.rs line 147): sort the segment list by starting virtual page. -/
def sortSegs (l : List Segment) : List Segment :=
  l.insertionSort (fun a b => a.vpage ≤ b.vpage)

/-- The adjacent-pair check of mod.rs lines 148-150: for every window
`[a, b]` of the (sorted) list, `a.vpage + a.pages.len() <= b.vpage`.
`false` models the fatal `assert!`, which aborts the build rather than
returning a recoverable error. -/
def adjacentOk : List Segment → Bool
  | [] => true
  | [_] => true
  | a :: b :: rest =>
    decide (a.vpage + a.pagesLen ≤ b.vpage) && adjacentOk (b :: rest)

/-- The overlap check performed by `Backend::build` (mod.rs lines
146-150): sort by starting virtual page, then assert that adjacent
segments do not overlap. -/
def buildSegsOk (l : List Segment) : Bool :=
  adjacentOk (sortSegs l)

/-- Two segments overlap when their page intervals
`[vpage, vpage + pages.len())` intersect. -/
def segOverlap (a b : Segment) : Prop :=
  a.vpage < b.vpage + b.pagesLen ∧ b.vpage < a.vpage + a.pagesLen

instance (a b : Segment) : Decidable (segOverlap a b) :=
  inferInstanceAs
    (Decidable (a.vpage < b.vpage + b.pagesLen ∧ b.vpage < a.vpage + a.pagesLen))

/-- `{ t with how := Resume, cssa := n }`: the thread state after a clean
return when the previous CSSA was `n + 1`. -/
def Thread.resumed (t : Thread) (n : Nat) : Thread :=
  { t with how := Entry.Resume, cssa := n }

theorem cpuid_preserves (t t3 : Thread) (cf : CpuidFn) (h : t.cpuid cf = some t3) :
    t3.cssa = t.cssa ∧ t3.how = t.how ∧ t3.block.msg.rep = t.block.msg.rep := by
  unfold Thread.cpuid at h
  split at h
  · cases h
    exact ⟨rfl, rfl, rfl⟩
  · cases h

theorem enter_aex_ud (t : Thread) (ei : ExceptionInfo) (cf : CpuidFn) (att : AttResult)
    (h : ei.trap = InterruptVector.invalidOpcode) :
    t.enter (HwResult.aex ei) cf att =
      Res.ok ({ t with how := Entry.Enter, cssa := t.cssa + 1 }, Command.Continue) := by
  unfold Thread.enter
  simp [h]

theorem enter_aex_other (t : Thread) (ei : ExceptionInfo) (cf : CpuidFn) (att : AttResult)
    (h : ei.trap ≠ InterruptVector.invalidOpcode) :
    t.enter (HwResult.aex ei) cf att = Res.error (EnterErr.unexpectedAex ei) := by
  unfold Thread.enter
  simp [h]

theorem enter_ok_underflow (t : Thread) (cf : CpuidFn) (att : AttResult)
    (h : t.cssa = 0) :
    t.enter HwResult.ok cf att = Res.error EnterErr.cssaUnderflow := by
  unfold Thread.enter
  rw [h]

theorem enter_ok_resume (t : Thread) (cf : CpuidFn) (att : AttResult) (n : Nat)
    (hc : t.cssa = n + 1) (hh : t.how = Entry.Resume) :
    t.enter HwResult.ok cf att = Res.ok (t.resumed n, Command.Continue) := by
  unfold Thread.enter Thread.resumed
  rw [hc, hh]

theorem enter_ok_cpuid (t : Thread) (cf : CpuidFn) (att : AttResult) (n : Nat) (t3 : Thread)
    (hc : t.cssa = n + 1) (hh : t.how = Entry.Enter)
    (hnum : t.block.msg.req.num = SYS_ENARX_CPUID)
    (hcp : (t.resumed n).cpuid cf = some t3) :
    t.enter HwResult.ok cf att = Res.ok (t3, Command.Continue) := by
  unfold Thread.enter
  rw [hc, hh]
  unfold Thread.resumed at hcp
  simp [hnum, hcp]

theorem enter_ok_cpuid_overflow (t : Thread) (cf : CpuidFn) (att : AttResult) (n : Nat)
    (hc : t.cssa = n + 1) (hh : t.how = Entry.Enter)
    (hnum : t.block.msg.req.num = SYS_ENARX_CPUID)
    (hcp : (t.resumed n).cpuid cf = none) :
    t.enter HwResult.ok cf att = Res.error EnterErr.cpuidArgOverflow := by
  unfold Thread.enter
  rw [hc, hh]
  unfold Thread.resumed at hcp
  simp [hnum, hcp]

theorem enter_ok_getatt (t : Thread) (cf : CpuidFn) (att : AttResult) (n r : Nat)
    (hc : t.cssa = n + 1) (hh : t.how = Entry.Enter)
    (hnum : t.block.msg.req.num = SYS_ENARX_GETATT)
    (hatt : att = AttResult.ok r) :
    t.enter HwResult.ok cf att = Res.ok ((t.resumed n).attest r, Command.Continue) := by
  unfold Thread.enter Thread.resumed
  rw [hc, hh, hatt]
  have hne : t.block.msg.req.num ≠ SYS_ENARX_CPUID := by
    rw [hnum]; unfold SYS_ENARX_GETATT SYS_ENARX_CPUID; omega
  rw [hnum] at hne
  simp [if_neg hne, hnum]

theorem enter_ok_getatt_err (t : Thread) (cf : CpuidFn) (att : AttResult) (n : Nat)
    (hc : t.cssa = n + 1) (hh : t.how = Entry.Enter)
    (hnum : t.block.msg.req.num = SYS_ENARX_GETATT)
    (hatt : att = AttResult.error) :
    t.enter HwResult.ok cf att = Res.error EnterErr.attestFailed := by
  unfold Thread.enter
  rw [hc, hh, hatt]
  have hne : t.block.msg.req.num ≠ SYS_ENARX_CPUID := by
    rw [hnum]; unfold SYS_ENARX_GETATT SYS_ENARX_CPUID; omega
  rw [hnum] at hne
  simp [if_neg hne, hnum]

theorem enter_ok_syscall (t : Thread) (cf : CpuidFn) (att : AttResult) (n : Nat)
    (hc : t.cssa = n + 1) (hh : t.how = Entry.Enter)
    (h1 : t.block.msg.req.num ≠ SYS_ENARX_CPUID)
    (h2 : t.block.msg.req.num ≠ SYS_ENARX_GETATT) :
    t.enter HwResult.ok cf att =
      Res.ok (t.resumed n, Command.SysCall (t.resumed n).block) := by
  unfold Thread.enter Thread.resumed
  rw [hc, hh]
  simp only [if_neg h1, if_neg h2]

theorem attest_how_cssa (t : Thread) (r : Nat) :
    (t.attest r).how = t.how ∧ (t.attest r).cssa = t.cssa :=
  ⟨rfl, rfl⟩

theorem enter_ok_inv_clean (t t2 : Thread) (c : Command) (cf : CpuidFn) (att : AttResult)
    (h : t.enter HwResult.ok cf att = Res.ok (t2, c)) :
    t2.how = Entry.Resume ∧ t2.cssa + 1 = t.cssa := by
  unfold Thread.enter at h
  rcases hc : t.cssa with _ | n <;> rw [hc] at h
  · cases h
  · rcases hh : t.how with _ | _ <;> rw [hh] at h <;> simp only at h
    · split at h
      · rcases hcp : Thread.cpuid { t with how := Entry.Resume, cssa := n } cf
          with _ | t3 <;> rw [hcp] at h
        · cases h
        · cases h
          have hp := cpuid_preserves _ _ _ hcp
          exact ⟨hp.2.1, by rw [hp.1]⟩
      · split at h
        · rcases hatt : att with r | _ <;> rw [hatt] at h
          · cases h
            exact ⟨rfl, rfl⟩
          · cases h
        · cases h
          exact ⟨rfl, rfl⟩
    · cases h
      exact ⟨rfl, rfl⟩

theorem enter_aex_inv (t t2 : Thread) (ei : ExceptionInfo) (c : Command)
    (cf : CpuidFn) (att : AttResult)
    (h : t.enter (HwResult.aex ei) cf att = Res.ok (t2, c)) :
    ei.trap = InterruptVector.invalidOpcode ∧ t2.how = Entry.Enter ∧
      t2.cssa = t.cssa + 1 ∧ t2.block = t.block ∧ c = Command.Continue := by
  by_cases hud : ei.trap = InterruptVector.invalidOpcode
  · rw [enter_aex_ud t ei cf att hud] at h
    simp only [Res.ok.injEq, Prod.mk.injEq] at h
    obtain ⟨h2, h3⟩ := h
    subst h2
    subst h3
    exact ⟨hud, rfl, rfl, rfl, rfl⟩
  · rw [enter_aex_other t ei cf att hud] at h
    simp at h

theorem run_cssa_count (steps : List StepIn) :
    ∀ (t t2 : Thread), t.run steps = Res.ok t2 →
      t2.cssa + countOk steps = t.cssa + countUD steps := by
  induction steps with
  | nil =>
    intro t t2 h
    unfold Thread.run at h
    simp only [Res.ok.injEq] at h
    subst h
    simp [countOk, countUD]
  | cons s rest ih =>
    intro t t2 h
    unfold Thread.run at h
    rcases he : t.enter s.hw s.cf s.att with ⟨t1, c⟩ | e <;> rw [he] at h
    · have hrest := ih t1 t2 h
      rcases hhw : s.hw with _ | ei
      · rw [hhw] at he
        have hinv := enter_ok_inv_clean t t1 c s.cf s.att he
        simp only [countOk, countUD, hhw]
        omega
      · rw [hhw] at he
        have hinv := enter_aex_inv t t1 ei c s.cf s.att he
        simp only [countOk, countUD, hhw, hinv.1, if_pos]
        omega
    · simp at h

theorem enterOnce_fst (s : ShimThread) : (s.enterOnce).1 = s := by
  unfold ShimThread.enterOnce
  split <;> rfl

theorem afterEnters_eq (s : ShimThread) (n : Nat) : s.afterEnters n = s := by
  induction n with
  | zero => rfl
  | succ n ih =>
    unfold ShimThread.afterEnters
    rw [ih, enterOnce_fst]

instance : IsTotal Segment (fun a b => a.vpage ≤ b.vpage) :=
  ⟨fun a b => Nat.le_total a.vpage b.vpage⟩

instance : IsTrans Segment (fun a b => a.vpage ≤ b.vpage) :=
  ⟨fun _ _ _ hab hbc => Nat.le_trans hab hbc⟩

theorem adjacentOk_tail (a : Segment) (l : List Segment)
    (h : adjacentOk (a :: l) = true) : adjacentOk l = true := by
  cases l with
  | nil => rfl
  | cons b rest =>
    unfold adjacentOk at h
    exact (Bool.and_eq_true _ _ |>.mp h).2

theorem adjacentOk_head (l : List Segment) :
    ∀ (a : Segment), adjacentOk (a :: l) = true →
      ∀ c ∈ l, a.vpage + a.pagesLen ≤ c.vpage := by
  induction l with
  | nil =>
    intro a _ c hc
    cases hc
  | cons b rest ih =>
    intro a h c hc
    unfold adjacentOk at h
    obtain ⟨hab, hrest⟩ := Bool.and_eq_true _ _ |>.mp h
    have hab' : a.vpage + a.pagesLen ≤ b.vpage := of_decide_eq_true hab
    cases hc with
    | head => exact hab'
    | tail _ hc =>
      have hbc := ih b hrest c hc
      omega

theorem adjacentOk_pairwise (l : List Segment) (h : adjacentOk l = true) :
    l.Pairwise (fun a b => a.vpage + a.pagesLen ≤ b.vpage) := by
  induction l with
  | nil => exact List.Pairwise.nil
  | cons a rest ih =>
    exact List.Pairwise.cons (adjacentOk_head rest a h) (ih (adjacentOk_tail a rest h))

theorem buildSegsOk_disjoint (l : List Segment) (h : buildSegsOk l = true) :
    l.Pairwise (fun a b =>
      a.vpage + a.pagesLen ≤ b.vpage ∨ b.vpage + b.pagesLen ≤ a.vpage) := by
  have hsorted := adjacentOk_pairwise (sortSegs l) h
  have hperm : List.Perm (sortSegs l) l := List.perm_insertionSort _ l
  exact (hperm.pairwise_iff fun hab => hab.symm).mp (hsorted.imp fun hab => Or.inl hab)

/-- A trivial CPUID oracle used to instantiate theorems on concrete runs. -/
def cfZero : CpuidFn := fun _ _ => { eax := 0, ebx := 0, ecx := 0, edx := 0 }

/-- An exception record for the #UD trap of the syscall-proxy convention. -/
def eiUD : ExceptionInfo :=
  { last := Entry.Enter, trap := InterruptVector.invalidOpcode, code := 0, addr := 0 }

/-- An exception record for a page fault (vector 14), not part of the
syscall-proxy convention. -/
def eiPF : ExceptionInfo :=
  { last := Entry.Enter, trap := 14, code := 0, addr := 0 }

/-- A thread about to resume at depth 1. -/
def tResume1 : Thread := { block := Block.default, cssa := 1, how := Entry.Resume }

/-- C1.  For every call to `Thread::enter`, the entry-mode state is a
function of the hardware outcome: a clean return (no exception) sets the
next entry mode to `Resume`, and an asynchronous exit whose trap is the
invalid-opcode vector of the syscall-proxy convention sets the next entry
mode to `Enter`; a freshly spawned thread starts in entry mode `Enter`. -/
theorem c1_entry_mode :
    (∀ (t : Thread) (cf : CpuidFn) (att : AttResult) (t2 : Thread) (c : Command),
       t.enter HwResult.ok cf att = Res.ok (t2, c) → t2.how = Entry.Resume) ∧
    (∀ (t : Thread) (ei : ExceptionInfo) (cf : CpuidFn) (att : AttResult)
       (t2 : Thread) (c : Command),
       ei.trap = InterruptVector.invalidOpcode →
       t.enter (HwResult.aex ei) cf att = Res.ok (t2, c) → t2.how = Entry.Enter) ∧
    spawnThread.how = Entry.Enter := by
  refine ⟨?_, ?_, rfl⟩
  · intro t cf att t2 c h
    exact (enter_ok_inv_clean t t2 c cf att h).1
  · intro t ei cf att t2 c _ h
    exact (enter_aex_inv t t2 ei c cf att h).2.1

/-- Witness for C1 at concrete inputs: a clean return at depth 1 yields
entry mode `Resume`, and a fresh thread starts in `Enter`. -/
theorem c1_entry_mode_witness :
    (tResume1.resumed 0).how = Entry.Resume ∧ spawnThread.how = Entry.Enter :=
  ⟨c1_entry_mode.1 tResume1 cfZero (AttResult.ok 0) (tResume1.resumed 0)
      Command.Continue (by decide),
   c1_entry_mode.2.2⟩

/-- C2.  The CSSA depth counter starts at 0, increments by exactly one on
each transition whose resulting entry mode is `Enter`, decrements by
exactly one on each transition whose resulting entry mode is `Resume`,
equals (number of `Enter` transitions) − (number of `Resume` transitions)
after any successful run from a fresh thread (so the `Resume` count never
exceeds the `Enter` count), and a clean-return outcome at depth 0 — the
only outcome that would drive it below zero — is fatal before underflow. -/
theorem c2_cssa_invariant :
    spawnThread.cssa = 0 ∧
    (∀ (t : Thread) (hw : HwResult) (cf : CpuidFn) (att : AttResult)
       (t2 : Thread) (c : Command),
       t.enter hw cf att = Res.ok (t2, c) →
         (t2.how = Entry.Enter → t2.cssa = t.cssa + 1) ∧
         (t2.how = Entry.Resume → t2.cssa + 1 = t.cssa)) ∧
    (∀ (steps : List StepIn) (t2 : Thread),
       spawnThread.run steps = Res.ok t2 →
         t2.cssa + countOk steps = countUD steps ∧ countOk steps ≤ countUD steps) ∧
    (∀ (t : Thread) (cf : CpuidFn) (att : AttResult),
       t.cssa = 0 → t.enter HwResult.ok cf att = Res.error EnterErr.cssaUnderflow) := by
  refine ⟨rfl, ?_, ?_, ?_⟩
  · intro t hw cf att t2 c h
    cases hw with
    | ok =>
      have hinv := enter_ok_inv_clean t t2 c cf att h
      constructor
      · intro hEnter
        rw [hinv.1] at hEnter
        cases hEnter
      · intro _
        omega
    | aex ei =>
      have hinv := enter_aex_inv t t2 ei c cf att h
      constructor
      · intro _
        exact hinv.2.2.1
      · intro hResume
        rw [hinv.2.1] at hResume
        cases hResume
  · intro steps t2 h
    have hcount := run_cssa_count steps spawnThread t2 h
    have hz : spawnThread.cssa = 0 := rfl
    constructor <;> omega
  · intro t cf att h
    exact enter_ok_underflow t cf att h

/-- One #UD-exit step followed by one clean-return step. -/
def steps2 : List StepIn :=
  [ { hw := HwResult.aex eiUD, cf := cfZero, att := AttResult.ok 0 }
  , { hw := HwResult.ok, cf := cfZero, att := AttResult.ok 0 } ]

/-- Witness for C2 at concrete inputs: the two-step run `#UD then clean`
from a fresh thread balances the counter, and a clean return at depth 0 is
fatal. -/
theorem c2_cssa_invariant_witness :
    (({ block := Block.default, cssa := 0, how := Entry.Resume } : Thread).cssa
        + countOk steps2 = countUD steps2 ∧
     countOk steps2 ≤ countUD steps2) ∧
    ({ block := Block.default, cssa := 1, how := Entry.Enter } : Thread).cssa =
      spawnThread.cssa + 1 ∧
    spawnThread.enter HwResult.ok cfZero (AttResult.ok 0) =
      Res.error EnterErr.cssaUnderflow :=
  ⟨c2_cssa_invariant.2.2.1 steps2
      { block := Block.default, cssa := 0, how := Entry.Resume } (by decide),
   (c2_cssa_invariant.2.1 spawnThread (HwResult.aex eiUD) cfZero (AttResult.ok 0)
      { block := Block.default, cssa := 1, how := Entry.Enter }
      Command.Continue (by decide)).1 rfl,
   c2_cssa_invariant.2.2.2 spawnThread cfZero (AttResult.ok 0) rfl⟩

/-- C4.  An asynchronous exit whose trap is any vector other than the
invalid-opcode vector of the syscall-proxy convention is fatal: `enter`
aborts with the `Unexpected AEX` panic instead of returning a command, so
the thread state is not advanced to any resumable mode. -/
theorem c4_unexpected_aex :
    ∀ (t : Thread) (ei : ExceptionInfo) (cf : CpuidFn) (att : AttResult),
      ei.trap ≠ InterruptVector.invalidOpcode →
      t.enter (HwResult.aex ei) cf att = Res.error (EnterErr.unexpectedAex ei) :=
  fun t ei cf att h => enter_aex_other t ei cf att h

/-- Witness for C4 at concrete inputs: a page-fault AEX on a fresh thread
is the fatal `Unexpected AEX` panic. -/
theorem c4_unexpected_aex_witness :
    spawnThread.enter (HwResult.aex eiPF) cfZero (AttResult.ok 0) =
      Res.error (EnterErr.unexpectedAex eiPF) :=
  c4_unexpected_aex spawnThread eiPF cfZero (AttResult.ok 0) (by decide)

/-- A block holding a CPUID request whose first argument does not fit in
32 bits (the `try_into().unwrap()` in `Thread::cpuid` panics on it). -/
def blockCpuidBig : Block :=
  { msg := { req := { num := SYS_ENARX_CPUID, arg0 := 2 ^ 32, arg1 := 0, arg2 := 0
                    , arg3 := 0, arg4 := 0, arg5 := 0, arg6 := 0 }
           , rep := Reply.ok 0 0 } }

/-- A block holding a CPUID request with in-range arguments. -/
def blockCpuidSmall : Block :=
  { msg := { req := { num := SYS_ENARX_CPUID, arg0 := 7, arg1 := 0, arg2 := 0
                    , arg3 := 0, arg4 := 0, arg5 := 0, arg6 := 0 }
           , rep := Reply.ok 0 0 } }

/-- Counterexample to C3 as stated: on the `Enter -> Resume` transition
with a request number equal to the CPU-identification code, `enter` does
not return the `Continue` command — with `arg[0] = 2^32` the argument
conversion inside `Thread::cpuid` panics, a fatal outcome. -/
theorem c3_decode_counterexample :
    Thread.enter { block := blockCpuidBig, cssa := 1, how := Entry.Enter }
        HwResult.ok cfZero (AttResult.ok 0) =
      Res.error EnterErr.cpuidArgOverflow := by
  decide

/-- C3 (amended).  `Thread::enter` decodes the request exactly on the
`Enter -> Resume` transition: a CPUID request is serviced inside `enter`
and returns `Continue` when its arguments fit in 32 bits (the conversion
panics otherwise); a GETATT request is serviced inside `enter` and returns
`Continue` when the attestation retrieval succeeds (a failure propagates
as an error); every other request number yields the syscall-service
command carrying the block; every other transition yields `Continue` with
the block untouched and undecoded. -/
theorem c3_decode_dispatch :
    (∀ (t : Thread) (ei : ExceptionInfo) (cf : CpuidFn) (att : AttResult),
       ei.trap = InterruptVector.invalidOpcode →
       t.enter (HwResult.aex ei) cf att =
         Res.ok ({ t with how := Entry.Enter, cssa := t.cssa + 1 }, Command.Continue)) ∧
    (∀ (t : Thread) (cf : CpuidFn) (att : AttResult) (n : Nat),
       t.cssa = n + 1 →
       (t.how = Entry.Resume →
          t.enter HwResult.ok cf att = Res.ok (t.resumed n, Command.Continue)) ∧
       (t.how = Entry.Enter →
         (t.block.msg.req.num = SYS_ENARX_CPUID →
            (∀ t3, (t.resumed n).cpuid cf = some t3 →
               t.enter HwResult.ok cf att = Res.ok (t3, Command.Continue)) ∧
            ((t.resumed n).cpuid cf = none →
               t.enter HwResult.ok cf att = Res.error EnterErr.cpuidArgOverflow)) ∧
         (t.block.msg.req.num = SYS_ENARX_GETATT →
            (∀ r, att = AttResult.ok r →
               t.enter HwResult.ok cf att =
                 Res.ok ((t.resumed n).attest r, Command.Continue)) ∧
            (att = AttResult.error →
               t.enter HwResult.ok cf att = Res.error EnterErr.attestFailed)) ∧
         (t.block.msg.req.num ≠ SYS_ENARX_CPUID →
           t.block.msg.req.num ≠ SYS_ENARX_GETATT →
             t.enter HwResult.ok cf att =
               Res.ok (t.resumed n, Command.SysCall (t.resumed n).block)))) := by
  refine ⟨?_, ?_⟩
  · intro t ei cf att hud
    exact enter_aex_ud t ei cf att hud
  · intro t cf att n hc
    refine ⟨?_, ?_⟩
    · intro hh
      exact enter_ok_resume t cf att n hc hh
    · intro hh
      refine ⟨?_, ?_, ?_⟩
      · intro hnum
        exact ⟨fun t3 hcp => enter_ok_cpuid t cf att n t3 hc hh hnum hcp,
               fun hcp => enter_ok_cpuid_overflow t cf att n hc hh hnum hcp⟩
      · intro hnum
        exact ⟨fun r hatt => enter_ok_getatt t cf att n r hc hh hnum hatt,
               fun hatt => enter_ok_getatt_err t cf att n hc hh hnum hatt⟩
      · intro h1 h2
        exact enter_ok_syscall t cf att n hc hh h1 h2

/-- Witness for C3 (amended) at concrete inputs: an in-range CPUID request
on the `Enter -> Resume` transition is serviced internally and returns
`Continue`; a non-Enarx request number is handed back as the
syscall-service command. -/
theorem c3_decode_dispatch_witness :
    Thread.enter { block := blockCpuidSmall, cssa := 1, how := Entry.Enter }
        HwResult.ok cfZero (AttResult.ok 0) =
      Res.ok (({ block := blockCpuidSmall, cssa := 1, how := Entry.Enter
               } : Thread).resumed 0 |>.cpuid cfZero |>.getD spawnThread,
              Command.Continue) ∧
    Thread.enter { block := Block.default, cssa := 1, how := Entry.Enter }
        HwResult.ok cfZero (AttResult.ok 0) =
      Res.ok (({ block := Block.default, cssa := 1, how := Entry.Enter
               } : Thread).resumed 0,
              Command.SysCall
                (({ block := Block.default, cssa := 1, how := Entry.Enter
                  } : Thread).resumed 0).block) :=
  ⟨(((c3_decode_dispatch.2
        { block := blockCpuidSmall, cssa := 1, how := Entry.Enter }
        cfZero (AttResult.ok 0) 0 rfl).2 rfl).1 rfl).1 _ (by decide),
   ((c3_decode_dispatch.2
        { block := Block.default, cssa := 1, how := Entry.Enter }
        cfZero (AttResult.ok 0) 0 rfl).2 rfl).2.2 (by decide) (by decide)⟩

/-- The block after `Thread::cpuid` stores the four CPUID result words
into the first four request argument slots. -/
def cpuidWrite (b : Block) (c : CpuidResult) : Block :=
  { b with msg.req.arg0 := c.eax
         , msg.req.arg1 := c.ebx
         , msg.req.arg2 := c.ecx
         , msg.req.arg3 := c.edx }

/-- Counterexample to C8 as stated: starting from entry mode `Enter` with
depth 0, a clean return does not leave the state `Resume` with depth 1 —
it is fatal: the `Resume` transition decrements the depth counter, and at
depth 0 the `unreachable!()` underflow guard fires. -/
theorem c8_scenario_counterexample :
    spawnThread.enter HwResult.ok cfZero (AttResult.ok 0) =
      Res.error EnterErr.cssaUnderflow := by
  decide

/-- C8 (amended).  Starting from entry mode `Enter` with depth 0, an
`enter` call in which the hardware reports the designated
illegal-instruction exit leaves the state `Enter` with depth 1 and returns
`Continue` without touching the block; a following call in which the
hardware reports a clean return leaves the state `Resume` with depth 0 and
decodes the request number held in the block, and a request number equal to the
CPU-id passthrough code (with arguments fitting 32 bits) is serviced
internally, returning `Continue` and never the syscall-service command. -/
theorem c8_scenario :
    ∀ (t : Thread) (ei : ExceptionInfo) (cf : CpuidFn) (att : AttResult),
      t.how = Entry.Enter → t.cssa = 0 →
      ei.trap = InterruptVector.invalidOpcode →
      t.block.msg.req.num = SYS_ENARX_CPUID →
      t.block.msg.req.arg0 < 2 ^ 32 → t.block.msg.req.arg1 < 2 ^ 32 →
      ∃ t1 t2,
        t.enter (HwResult.aex ei) cf att = Res.ok (t1, Command.Continue) ∧
        t1.how = Entry.Enter ∧ t1.cssa = 1 ∧ t1.block = t.block ∧
        t1.enter HwResult.ok cf att = Res.ok (t2, Command.Continue) ∧
        t2.how = Entry.Resume ∧ t2.cssa = 0 ∧
        t2.block.msg.req.arg0 = (cf t.block.msg.req.arg0 t.block.msg.req.arg1).eax := by
  intro t ei cf att hh hc hud hnum ha0 ha1
  have e1 : t.enter (HwResult.aex ei) cf att =
      Res.ok ({ t with how := Entry.Enter, cssa := 1 }, Command.Continue) := by
    rw [enter_aex_ud t ei cf att hud, hc]
  have hcp : (Thread.resumed { t with how := Entry.Enter, cssa := 1 } 0).cpuid cf =
      some { block := cpuidWrite t.block (cf t.block.msg.req.arg0 t.block.msg.req.arg1)
           , cssa := 0, how := Entry.Resume } := by
    unfold Thread.resumed Thread.cpuid cpuidWrite
    rw [if_pos]
    exact ⟨ha0, ha1⟩
  have e2 := enter_ok_cpuid { t with how := Entry.Enter, cssa := 1 } cf att 0 _
    rfl rfl hnum hcp
  exact ⟨{ t with how := Entry.Enter, cssa := 1 }, _,
    e1, rfl, rfl, rfl, e2, rfl, rfl, rfl⟩

/-- Witness for C8 (amended) at concrete inputs: from `(Enter, 0)` with an
in-range CPUID request, the #UD exit then the clean return play out as the
amended scenario states. -/
theorem c8_scenario_witness :
    ∃ t1 t2,
      Thread.enter { block := blockCpuidSmall, cssa := 0, how := Entry.Enter }
          (HwResult.aex eiUD) cfZero (AttResult.ok 0) =
        Res.ok (t1, Command.Continue) ∧
      t1.how = Entry.Enter ∧ t1.cssa = 1 ∧ t1.block = blockCpuidSmall ∧
      t1.enter HwResult.ok cfZero (AttResult.ok 0) = Res.ok (t2, Command.Continue) ∧
      t2.how = Entry.Resume ∧ t2.cssa = 0 ∧
      t2.block.msg.req.arg0 = (cfZero 7 0).eax :=
  c8_scenario { block := blockCpuidSmall, cssa := 0, how := Entry.Enter }
    eiUD cfZero (AttResult.ok 0) rfl rfl rfl rfl (by decide) (by decide)

/-- C5.  Every execution of the in-enclave `proxy(request)` performs, in
this exact order: write the request into the shared block, the
release-ordered fence, the designated illegal instruction forcing the
asynchronous exit, the acquire-ordered fence on resumption, and the read
of the reply field of the block (which it returns — the value the host wrote while
the enclave was stopped); the one request write precedes the release
fence and the one reply read follows the acquire fence. -/
theorem c5_proxy_order :
    ∀ (req : Request) (host : Block → Block) (b : Block),
      (proxy req host { block := b, log := [] }).2.log =
        [ProxyEvent.writeReq, ProxyEvent.fenceRelease, ProxyEvent.illegalInsn,
         ProxyEvent.fenceAcquire, ProxyEvent.readRep] ∧
      (proxy req host { block := b, log := [] }).1 =
        (host { b with msg.req := req }).msg.rep ∧
      (proxy req host { block := b, log := [] }).2.log.indexOf ProxyEvent.writeReq <
        (proxy req host { block := b, log := [] }).2.log.indexOf ProxyEvent.fenceRelease ∧
      (proxy req host { block := b, log := [] }).2.log.indexOf ProxyEvent.fenceRelease <
        (proxy req host { block := b, log := [] }).2.log.indexOf ProxyEvent.illegalInsn ∧
      (proxy req host { block := b, log := [] }).2.log.indexOf ProxyEvent.illegalInsn <
        (proxy req host { block := b, log := [] }).2.log.indexOf ProxyEvent.fenceAcquire ∧
      (proxy req host { block := b, log := [] }).2.log.indexOf ProxyEvent.fenceAcquire <
        (proxy req host { block := b, log := [] }).2.log.indexOf ProxyEvent.readRep := by
  intro req host b
  have hlog : (proxy req host { block := b, log := [] }).2.log =
      [ProxyEvent.writeReq, ProxyEvent.fenceRelease, ProxyEvent.illegalInsn,
       ProxyEvent.fenceAcquire, ProxyEvent.readRep] := rfl
  refine ⟨hlog, rfl, ?_, ?_, ?_, ?_⟩ <;> rw [hlog] <;> decide

/-- C9.  The circuit breaker never returns to its caller: `attacked` trips
the latch and performs the terminal exit (code 1); for every n, the
(n+1)-th subsequent attempt to enter the enclave is an immediate exit,
and the latch is still set after any number of attempts — it is never
reset. -/
theorem c9_circuit_breaker :
    ∀ (s : ShimThread) (n : Nat),
      (s.attacked).1.tripped = true ∧ (s.attacked).2 = 1 ∧
      ((ShimThread.afterEnters (s.attacked).1 n).enterOnce).2 =
        ShimEnterResult.immediateExit ∧
      (ShimThread.afterEnters (s.attacked).1 n).tripped = true := by
  intro s n
  rw [afterEnters_eq]
  exact ⟨rfl, rfl, rfl, rfl⟩

/-- C6.  After translating the loadable program headers, the segment list
is sorted by starting virtual page and every adjacent pair `A, B` of the
sorted list satisfies `A.vpage + A.pages.len() <= B.vpage`; if any two
segments of the list overlap, the build takes the fatal assertion path
(`buildSegsOk = false`), never a recoverable error. -/
theorem c6_overlap_check :
    ∀ (l : List Segment),
      (buildSegsOk l = true →
        (sortSegs l).Sorted (fun a b => a.vpage ≤ b.vpage) ∧
        (sortSegs l).Pairwise (fun a b => a.vpage + a.pagesLen ≤ b.vpage)) ∧
      (∀ i j : Fin l.length, i < j → segOverlap (l.get i) (l.get j) →
        buildSegsOk l = false) := by
  intro l
  constructor
  · intro h
    unfold buildSegsOk at h
    exact ⟨List.sorted_insertionSort _ l, adjacentOk_pairwise _ h⟩
  · intro i j hij hov
    cases hb : buildSegsOk l with
    | false => rfl
    | true =>
      have hpw := buildSegsOk_disjoint l hb
      have hd := List.pairwise_iff_get.mp hpw i j hij
      unfold segOverlap at hov
      rcases hd with h1 | h2 <;> omega

/-- A one-page read-only segment at virtual page 0. -/
def segA : Segment :=
  { fline := { start := 0, stop := 0 }, mline := { start := 0, stop := 0 }
  , pages := List.replicate PAGE_SIZE 0, vpage := 0
  , sinfo := SecInfo.reg { r := true, w := false, x := false }, measured := true }

/-- A one-page segment also at virtual page 0 (overlapping `segA`). -/
def segB : Segment :=
  { fline := { start := 0, stop := 0 }, mline := { start := 0, stop := 0 }
  , pages := List.replicate PAGE_SIZE 0, vpage := 0
  , sinfo := SecInfo.reg { r := true, w := true, x := false }, measured := true }

/-- A one-page segment at virtual page 1 (disjoint from `segA`). -/
def segC : Segment :=
  { fline := { start := 0, stop := 0 }, mline := { start := 0, stop := 0 }
  , pages := List.replicate PAGE_SIZE 0, vpage := 1
  , sinfo := SecInfo.reg { r := true, w := false, x := true }, measured := true }

/-- Witness for C6 at concrete inputs: two disjoint one-page segments pass
the check sorted and pairwise non-overlapping; two overlapping one-page
segments take the fatal assertion path. -/
theorem c6_overlap_check_witness :
    ((sortSegs [segA, segC]).Sorted (fun a b => a.vpage ≤ b.vpage) ∧
     (sortSegs [segA, segC]).Pairwise (fun a b => a.vpage + a.pagesLen ≤ b.vpage)) ∧
    buildSegsOk [segA, segB] = false := by
  have h1 : segA.pagesLen = 1 := by
    simp only [Segment.pagesLen, segA, List.length_replicate]
    norm_num [PAGE_SIZE]
  have h2 : segB.pagesLen = 1 := by
    simp only [Segment.pagesLen, segB, List.length_replicate]
    norm_num [PAGE_SIZE]
  have hsort : sortSegs [segA, segC] = [segA, segC] := by
    unfold sortSegs
    simp [List.insertionSort, List.orderedInsert, segA, segC]
  have hbuild : buildSegsOk [segA, segC] = true := by
    unfold buildSegsOk
    rw [hsort]
    show (decide (segA.vpage + segA.pagesLen ≤ segC.vpage) && adjacentOk [segC]) = true
    rw [h1]
    decide
  have hov : segOverlap segA segB := by
    unfold segOverlap
    rw [h1, h2]
    decide
  exact ⟨(c6_overlap_check [segA, segC]).1 hbuild,
    (c6_overlap_check [segA, segB]).2 ⟨0, by decide⟩ ⟨1, by decide⟩ (by decide) hov⟩

/-- An image component with no bytes. -/
def comp0 : Component := { bytes := [] }

/-- An empty loadable header with only the TCS flag bit set. -/
def phdrTcs : ProgramHeader :=
  { p_offset := 0, p_filesz := 0, p_vaddr := 0, p_memsz := 0
  , p_flags := PF_ENARX_SGX_TCS }

/-- A placeholder segment for `Option.getD`. -/
def segDummy : Segment :=
  { fline := { start := 0, stop := 0 }, mline := { start := 0, stop := 0 }
  , pages := [], vpage := 0, sinfo := SecInfo.tcs, measured := true }

/-- C7.  For every loadable program header translated by `Segment::new`:
the page class is `Tcs` exactly when the designated TCS header flag bit is
set, otherwise `Regular` with access flags copied from the header
read/write/execute bits; the load is unmeasured exactly when the
designated unmeasured header flag bit is set; and a relocation offset that
is not a multiple of the page size is a fatal assertion failure. -/
theorem c7_segment_new :
    ∀ (c : Component) (phdr : ProgramHeader) (relocate : Nat),
      (relocate % PAGE_SIZE ≠ 0 → Segment.new c phdr relocate = none) ∧
      (∀ s, Segment.new c phdr relocate = some s →
        (s.sinfo.cls = PageClass.Tcs ↔ phdr.p_flags &&& PF_ENARX_SGX_TCS ≠ 0) ∧
        (phdr.p_flags &&& PF_ENARX_SGX_TCS = 0 →
          s.sinfo = SecInfo.reg { r := phdr.p_flags &&& PF_R = PF_R
                                , w := phdr.p_flags &&& PF_W = PF_W
                                , x := phdr.p_flags &&& PF_X = PF_X }) ∧
        (s.measured = false ↔ phdr.p_flags &&& PF_ENARX_SGX_UNMEASURED ≠ 0)) := by
  intro c phdr relocate
  constructor
  · intro h
    unfold Segment.new
    rw [if_neg h]
  · intro s h
    unfold Segment.new at h
    by_cases hal : relocate % PAGE_SIZE = 0
    · rw [if_pos hal] at h
      simp only [Option.some.injEq] at h
      subst h
      refine ⟨?_, ?_, ?_⟩
      · by_cases htcs : phdr.p_flags &&& PF_ENARX_SGX_TCS = 0
        · simp [htcs, SecInfo.reg]
        · simp [htcs, SecInfo.tcs]
      · intro htcs
        simp [htcs]
      · simp [decide_eq_false_iff_not]
    · rw [if_neg hal] at h
      cases h

/-- Witness for C7 at concrete inputs: a misaligned relocation offset is
the fatal assertion, and a TCS-flagged header yields a `Tcs` page class. -/
theorem c7_segment_new_witness :
    Segment.new comp0 phdrTcs 1 = none ∧
    (((Segment.new comp0 phdrTcs 0).getD segDummy).sinfo.cls = PageClass.Tcs ↔
      phdrTcs.p_flags &&& PF_ENARX_SGX_TCS ≠ 0) :=
  ⟨(c7_segment_new comp0 phdrTcs 1).1 (by decide),
   ((c7_segment_new comp0 phdrTcs 0).2
       ((Segment.new comp0 phdrTcs 0).getD segDummy) (by decide)).1⟩

/-- C10.  `Thread::cpuid` writes the four CPUID result words into the
first four argument slots of the request half of the block and leaves the
reply field (and the request number) untouched, whereas `Thread::attest`
writes its result into the reply field and leaves the request untouched:
a host observer reads CPUID results from the request arguments, not from
the reply. -/
theorem c10_cpuid_attest_fields :
    ∀ (t : Thread) (cf : CpuidFn) (r : Nat),
      (∀ t3, t.cpuid cf = some t3 →
        t3.block.msg.rep = t.block.msg.rep ∧
        t3.block.msg.req.num = t.block.msg.req.num ∧
        t3.block.msg.req.arg0 = (cf t.block.msg.req.arg0 t.block.msg.req.arg1).eax ∧
        t3.block.msg.req.arg1 = (cf t.block.msg.req.arg0 t.block.msg.req.arg1).ebx ∧
        t3.block.msg.req.arg2 = (cf t.block.msg.req.arg0 t.block.msg.req.arg1).ecx ∧
        t3.block.msg.req.arg3 = (cf t.block.msg.req.arg0 t.block.msg.req.arg1).edx) ∧
      ((t.attest r).block.msg.rep = Reply.ok r 0 ∧
       (t.attest r).block.msg.req = t.block.msg.req) := by
  intro t cf r
  constructor
  · intro t3 h
    unfold Thread.cpuid at h
    split at h
    · simp only [Option.some.injEq] at h
      subst h
      exact ⟨rfl, rfl, rfl, rfl, rfl, rfl⟩
    · cases h
  · exact ⟨rfl, rfl⟩

/-- Witness for C10 at concrete inputs: CPUID on an in-range request
leaves the reply untouched and stores the oracle result words in the argument
slots. -/
theorem c10_cpuid_attest_fields_witness :
    ((Thread.cpuid { block := blockCpuidSmall, cssa := 0, how := Entry.Enter }
        cfZero |>.getD spawnThread).block.msg.rep = blockCpuidSmall.msg.rep ∧
     (Thread.cpuid { block := blockCpuidSmall, cssa := 0, how := Entry.Enter }
        cfZero |>.getD spawnThread).block.msg.req.num = blockCpuidSmall.msg.req.num ∧
     (Thread.cpuid { block := blockCpuidSmall, cssa := 0, how := Entry.Enter }
        cfZero |>.getD spawnThread).block.msg.req.arg0 = (cfZero 7 0).eax ∧
     (Thread.cpuid { block := blockCpuidSmall, cssa := 0, how := Entry.Enter }
        cfZero |>.getD spawnThread).block.msg.req.arg1 = (cfZero 7 0).ebx ∧
     (Thread.cpuid { block := blockCpuidSmall, cssa := 0, how := Entry.Enter }
        cfZero |>.getD spawnThread).block.msg.req.arg2 = (cfZero 7 0).ecx ∧
     (Thread.cpuid { block := blockCpuidSmall, cssa := 0, how := Entry.Enter }
        cfZero |>.getD spawnThread).block.msg.req.arg3 = (cfZero 7 0).edx) :=
  (c10_cpuid_attest_fields { block := blockCpuidSmall, cssa := 0, how := Entry.Enter }
      cfZero 0).1
    (Thread.cpuid { block := blockCpuidSmall, cssa := 0, how := Entry.Enter }
        cfZero |>.getD spawnThread)
    (by decide)
